import Mathlib

/-!
Verification of the saba-chan control-plane slice: RCON framing
(`extensions/rcon.py`), the minimal RCON readers in the minecraft and
palworld modules, the SLP varint codec and ping loop
(`modules/minecraft/lifecycle.py`), the hook dispatchers
(`modules/_template/lifecycle.py`, `modules/minecraft/lifecycle.py`,
`extensions/docker/compose_manager.py`) and the docker provisioning
pipeline (`extensions/docker/compose_manager.py`).

Bytes are modelled as `Nat` (values below 256 in every frame the code
builds); byte strings as `List Nat`.  A TCP socket's incoming data is a
`ByteStream`: the list of segments successive `recv` calls deliver, an
exhausted list meaning the peer closed the connection.
-/

set_option maxHeartbeats 1000000

namespace Saba

/-- `struct.pack("<i", n)`: the 4 little-endian bytes of `n` taken mod `2^32`
(Python raises for `n` outside the signed 32-bit range; callers in the code
stay inside it). -/
def pack_i32 (n : Int) : List Nat :=
  let u := (n % 4294967296).toNat
  [u % 256, u / 256 % 256, u / 65536 % 256, u / 16777216 % 256]

/-- `struct.unpack("<i", b)`: reassemble the 4 little-endian bytes and
re-interpret as a signed 32-bit value. -/
def unpack_i32 (b : List Nat) : Int :=
  let u := b.getD 0 0 + 256 * b.getD 1 0 + 65536 * b.getD 2 0
    + 16777216 * b.getD 3 0
  if u < 2147483648 then (u : Int) else (u : Int) - 4294967296

theorem pack_i32_length (n : Int) : (pack_i32 n).length = 4 := rfl

theorem unpack_pack_i32 (n : Int) (h1 : -2147483648 ≤ n) (h2 : n < 2147483648) :
    unpack_i32 (pack_i32 n) = n := by
  simp only [pack_i32, unpack_i32, List.getD_cons_zero, List.getD_cons_succ]
  omega

/-- Incoming TCP data as the segments successive `recv` calls return;
no segments left models a closed connection. -/
structure ByteStream where
  segs : List (List Nat)
deriving DecidableEq, Repr

/-- One `socket.recv(n)` call: at most `n` bytes from the front segment
(an empty result modelling a closed stream). -/
def recv (st : ByteStream) (n : Nat) : List Nat × ByteStream :=
  match st.segs with
  | [] => ([], ⟨[]⟩)
  | s :: rest =>
    let taken := s.take n
    let rem := s.drop n
    (taken, ⟨if rem = [] then rest else rem :: rest⟩)

theorem recv_fst_length_le (st : ByteStream) (n : Nat) :
    (recv st n).1.length ≤ n := by
  unfold recv
  match st.segs with
  | [] => simp
  | s :: rest => simp [List.length_take]

/-- `RconClient._recv_exact` (extensions/rcon.py:149-157): loop until exactly
`n` bytes are buffered, `none` when the stream closes first. -/
def recv_exact (st : ByteStream) (n : Nat) : Option (List Nat × ByteStream) :=
  if hn : n = 0 then some ([], st)
  else
    let chunk := (recv st n).1
    let st' := (recv st n).2
    if hc : chunk = [] then none
    else
      match recv_exact st' (n - chunk.length) with
      | none => none
      | some (r, st'') => some (chunk ++ r, st'')
termination_by n
decreasing_by
  simp_wf
  exact ⟨Nat.pos_of_ne_zero hn, List.length_pos.mpr hc⟩

/-- `RconClient._send_packet` (extensions/rcon.py:116-120): request id,
packet type, payload, two nulls, all behind a 4-byte LE length prefix. -/
def send_packet (req_id pkt_type : Int) (payload : List Nat) : List Nat :=
  let body := pack_i32 req_id ++ pack_i32 pkt_type ++ payload ++ [0, 0]
  pack_i32 (body.length : Int) ++ body

/-- `PalworldRconClient._make_packet` (modules/palworld/lifecycle.py:126-140):
identical layout, id/type/payload/terminator behind a LE size prefix. -/
def make_packet (req_id pkt_type : Int) (payload : List Nat) : List Nat :=
  let packet_data := pack_i32 req_id ++ pack_i32 pkt_type ++ payload ++ [0, 0]
  pack_i32 (packet_data.length : Int) ++ packet_data

/-- `RconClient._read_packet` (extensions/rcon.py:122-147): 4-byte size, then
exactly `size` bytes via `_recv_exact`, then split into id/type/payload. -/
def read_packet (st : ByteStream) :
    Option ((Int × Int × List Nat) × ByteStream) :=
  match recv_exact st 4 with
  | none => none
  | some (raw_size, st1) =>
    let size := unpack_i32 raw_size
    match recv_exact st1 size.toNat with
    | none => none
    | some (data, st2) =>
      if data.length < 8 then none
      else
        let req_id := unpack_i32 (data.take 4)
        let pkt_type := unpack_i32 ((data.drop 4).take 4)
        let payload :=
          if data.length > 10 then ((data.drop 8).dropLast).dropLast else []
        some ((req_id, pkt_type, payload), st2)

theorem recv_exact_zero (st : ByteStream) : recv_exact st 0 = some ([], st) := by
  rw [recv_exact.eq_def]
  simp

/-- On a single segment `a ++ b` a request for exactly `a.length` bytes is
served whole, leaving `b`. -/
theorem recv_exact_whole (a b : List Nat) (ha : a ≠ []) :
    recv_exact ⟨[a ++ b]⟩ a.length
      = some (a, ⟨if b = [] then [] else [b]⟩) := by
  rw [recv_exact.eq_def]
  have hlen : a.length ≠ 0 := by
    simpa [List.length_eq_zero] using ha
  have hrecv : recv ⟨[a ++ b]⟩ a.length
      = (a, ⟨if b = [] then [] else [b]⟩) := by
    simp [recv, List.take_left, List.drop_left]
  simp only [hlen, if_false, hrecv]
  have : ¬(a = []) := ha
  simp only [this, dif_neg, not_false_iff]
  rw [Nat.sub_self, recv_exact_zero]
  simp

theorem dropLast_two_append (P : List Nat) :
    (((P ++ [0, 0]).dropLast).dropLast) = P := by
  have h : P ++ [0, 0] = (P ++ [0]) ++ [0] := by simp
  rw [h]
  rw [List.dropLast_concat, List.dropLast_concat]

theorem send_packet_body_length (r t : Int) (P : List Nat) :
    (pack_i32 r ++ pack_i32 t ++ P ++ [0, 0]).length = 10 + P.length := by
  simp [pack_i32]
  omega

theorem read_packet_send_packet (r t : Int) (P : List Nat)
    (hr1 : -2147483648 ≤ r) (hr2 : r < 2147483648)
    (ht1 : -2147483648 ≤ t) (ht2 : t < 2147483648)
    (hP : P.length ≤ 4096) :
    read_packet ⟨[send_packet r t P]⟩ = some ((r, t, P), ⟨[]⟩) := by
  set body := pack_i32 r ++ pack_i32 t ++ P ++ [0, 0] with hbody
  have hblen : body.length = 10 + P.length := send_packet_body_length r t P
  have hframe : send_packet r t P = pack_i32 (body.length : Int) ++ body := rfl
  have hsne : pack_i32 (body.length : Int) ≠ [] := by simp [pack_i32]
  have hbne : body ≠ [] := by
    intro h
    rw [h, List.length_nil] at hblen
    omega
  have h4 : recv_exact ⟨[pack_i32 (body.length : Int) ++ body]⟩ 4
      = some (pack_i32 (body.length : Int), ⟨[body]⟩) := by
    have h0 := recv_exact_whole (pack_i32 (body.length : Int)) body hsne
    rw [pack_i32_length] at h0
    simpa [hbne] using h0
  have hsz : unpack_i32 (pack_i32 (body.length : Int)) = (body.length : Int) := by
    apply unpack_pack_i32 <;> omega
  have hbody2 : recv_exact ⟨[body]⟩ body.length = some (body, ⟨[]⟩) := by
    have h0 := recv_exact_whole body [] hbne
    rw [List.append_nil] at h0
    simpa using h0
  rw [read_packet, hframe, h4]
  simp only [hsz, Int.toNat_natCast]
  rw [hbody2]
  have hge : ¬(body.length < 8) := by omega
  simp only [hge, if_false]
  have htake4 : body.take 4 = pack_i32 r := by
    rw [hbody]
    rw [List.append_assoc, List.append_assoc]
    exact List.take_left' (pack_i32_length r)
  have hdrop4 : body.drop 4 = pack_i32 t ++ (P ++ [0, 0]) := by
    rw [hbody]
    rw [List.append_assoc, List.append_assoc]
    exact List.drop_left' (pack_i32_length r)
  have htake44 : (body.drop 4).take 4 = pack_i32 t := by
    rw [hdrop4]
    exact List.take_left' (pack_i32_length t)
  have hdrop8 : body.drop 8 = P ++ [0, 0] := by
    have : body.drop 8 = (body.drop 4).drop 4 := by
      rw [List.drop_drop]
    rw [this, hdrop4]
    exact List.drop_left' (pack_i32_length t)
  rw [htake4, htake44, unpack_pack_i32 r hr1 hr2, unpack_pack_i32 t ht1 ht2]
  rcases Decidable.em (P = []) with hPe | hPe
  · subst hPe
    simp only [List.length_nil] at hblen
    have hng : ¬(body.length > 10) := by omega
    simp [hng]
  · have hPl : 0 < P.length := List.length_pos.mpr hPe
    have hgt : body.length > 10 := by omega
    simp only [hgt, if_pos]
    rw [hdrop8, dropLast_two_append]

/-! ### SLP varint codec (modules/minecraft/lifecycle.py:567-597) -/

/-- Loop of `MinecraftPing._encode_varint` on the (already biased)
non-negative value: low 7 bits per byte, `0x80` marks continuation. -/
def encode_varint_value (u : Nat) : List Nat :=
  let byte := u &&& 127
  if h : u >>> 7 = 0 then [byte]
  else (byte ||| 128) :: encode_varint_value (u >>> 7)
termination_by u
decreasing_by
  rw [Nat.shiftRight_eq_div_pow] at h ⊢
  have h128 : 2 ^ 7 ≤ u := by
    by_contra hlt
    exact h (Nat.div_eq_of_lt (by omega))
  exact Nat.div_lt_self (by omega) (by norm_num)

/-- `MinecraftPing._encode_varint`: negative inputs are biased by `2^32`
before the 7-bit loop (the code loops forever below `-2^32`; the model is
used on 32-bit values only). -/
def encode_varint (v : Int) : List Nat :=
  encode_varint_value ((if v < 0 then v + 4294967296 else v).toNat)

/-- Loop of `MinecraftPing._read_varint`: accumulate 7 bits per byte at
increasing shifts until a byte without the `0x80` continuation bit;
running past the end of `data` is the `ValueError` path. -/
def read_varint_loop (data : List Nat) (offset result shift : Nat) :
    Option (Nat × Nat) :=
  if hoff : offset < data.length then
    if data[offset] &&& 128 = 0 then
      some (result ||| ((data[offset] &&& 127) <<< shift), offset + 1)
    else
      read_varint_loop data (offset + 1)
        (result ||| ((data[offset] &&& 127) <<< shift)) (shift + 7)
  else none
termination_by data.length - offset
decreasing_by
  omega

/-- `MinecraftPing._read_varint` (modules/minecraft/lifecycle.py:582-597):
decode, then un-bias when bit 31 of the reconstructed value is set. -/
def read_varint (data : List Nat) (offset : Nat) : Option (Int × Nat) :=
  match read_varint_loop data offset 0 0 with
  | none => none
  | some (result, off) =>
    if result &&& 2147483648 = 0 then some ((result : Int), off)
    else some ((result : Int) - 4294967296, off)

theorem and_127_eq_mod (b : Nat) : b &&& 127 = b % 128 := by
  have h := Nat.and_pow_two_sub_one_eq_mod b 7
  norm_num at h
  exact h

theorem and_128_eq_zero {b : Nat} (hb : b < 128) : b &&& 128 = 0 := by
  apply Nat.eq_of_testBit_eq
  intro i
  simp only [Nat.testBit_and, Nat.zero_testBit]
  rcases Decidable.em (i = 7) with h7 | h7
  · subst h7
    have : b.testBit 7 = false := Nat.testBit_lt_two_pow (by omega)
    simp [this]
  · have : (128 : Nat).testBit i = false := by
      rw [show (128 : Nat) = 2 ^ 7 by norm_num]
      exact Nat.testBit_two_pow_of_ne (Ne.symm h7)
    simp [this]

theorem or_128_and_128_ne_zero (b : Nat) : (b ||| 128) &&& 128 ≠ 0 := by
  intro h
  have h7 := congrArg (fun n => Nat.testBit n 7) h
  simp only [Nat.testBit_and, Nat.testBit_or, Nat.zero_testBit] at h7
  rw [show (128 : Nat) = 2 ^ 7 by norm_num, Nat.testBit_two_pow_self] at h7
  simp at h7

theorem or_128_and_127 (b : Nat) (hb : b < 128) : (b ||| 128) &&& 127 = b := by
  rw [Nat.and_distrib_right, and_127_eq_mod, Nat.mod_eq_of_lt hb]
  rw [show (128 : Nat) &&& 127 = 0 by decide]
  simp

theorem lor_shiftLeft_eq_add (a b s : Nat) (ha : a < 2 ^ s) :
    a ||| (b <<< s) = a + b * 2 ^ s := by
  apply Nat.eq_of_testBit_eq
  intro i
  rw [Nat.testBit_or, Nat.testBit_shiftLeft]
  rcases Nat.lt_or_ge i s with hlt | hge
  · obtain ⟨j, hj⟩ : ∃ j, s = i + 1 + j := ⟨s - i - 1, by omega⟩
    subst hj
    have hd : (decide (i + 1 + j ≤ i)) = false := by
      simp
      omega
    rw [hd, Bool.false_and, Bool.or_false]
    rw [Nat.testBit_to_div_mod, Nat.testBit_to_div_mod]
    have hmul : b * 2 ^ (i + 1 + j) = b * 2 ^ j * 2 * 2 ^ i := by
      rw [pow_add, pow_add]
      ring
    rw [hmul, Nat.add_mul_div_right _ _ (Nat.two_pow_pos i),
      Nat.add_mul_mod_self_right]
  · obtain ⟨j, hj⟩ : ∃ j, i = s + j := ⟨i - s, by omega⟩
    subst hj
    have hd : (decide (s ≤ s + j)) = true := by simp
    have hsub : s + j - s = j := by omega
    have hlow : a.testBit (s + j) = false :=
      Nat.testBit_lt_two_pow
        (lt_of_lt_of_le ha (Nat.pow_le_pow_right (by norm_num) (by omega)))
    have hdiv : (a + b * 2 ^ s) / 2 ^ (s + j) = b / 2 ^ j := by
      rw [pow_add, ← Nat.div_div_eq_div_mul,
        Nat.add_mul_div_right _ _ (Nat.two_pow_pos s), Nat.div_eq_of_lt ha,
        Nat.zero_add]
    rw [hd, Bool.true_and, hsub, hlow, Bool.false_or,
      Nat.testBit_to_div_mod, Nat.testBit_to_div_mod, hdiv]

theorem getElem_append_head (pre : List Nat) (x : Nat) (tail : List Nat)
    (h : pre.length < (pre ++ (x :: tail)).length) :
    (pre ++ (x :: tail))[pre.length] = x := by
  rw [List.getElem_append_right (Nat.le_refl pre.length)]
  simp

theorem read_varint_loop_encode (u : Nat) :
    ∀ (pre rest : List Nat) (result shift : Nat), result < 2 ^ shift →
      read_varint_loop (pre ++ (encode_varint_value u ++ rest)) pre.length
          result shift
        = some (result + u * 2 ^ shift,
            pre.length + (encode_varint_value u).length) := by
  induction u using Nat.strong_induction_on with
  | _ u IH =>
    intro pre rest result shift hres
    have hu7 : u >>> 7 = u / 128 := by
      rw [Nat.shiftRight_eq_div_pow]
    have hbval : u &&& 127 = u % 128 := and_127_eq_mod u
    rw [encode_varint_value]
    rcases Decidable.em (u >>> 7 = 0) with h0 | h0
    · simp only [h0, dif_pos]
      have hu : u < 128 := by
        rw [hu7] at h0
        omega
      have hb : u &&& 127 = u := by
        rw [hbval, Nat.mod_eq_of_lt hu]
      rw [hb, List.singleton_append, read_varint_loop]
      have hoff : pre.length < (pre ++ (u :: rest)).length := by
        simp
      rw [dif_pos hoff, getElem_append_head pre _ rest hoff]
      rw [if_pos (and_128_eq_zero hu), hb]
      rw [lor_shiftLeft_eq_add _ _ _ hres]
      simp
    · simp only [h0, dif_neg, not_false_iff]
      set b := u &&& 127 with hbdef
      have hblt : b < 128 := by
        rw [hbdef, and_127_eq_mod]
        omega
      rw [List.cons_append, read_varint_loop]
      have hoff : pre.length
          < (pre ++ ((b ||| 128) :: (encode_varint_value (u >>> 7) ++ rest))).length := by
        simp
      rw [dif_pos hoff, getElem_append_head pre _ _ hoff]
      simp only [or_128_and_128_ne_zero b, if_neg, not_false_iff]
      rw [or_128_and_127 b hblt]
      have hres' : result ||| (b <<< shift) = result + b * 2 ^ shift :=
        lor_shiftLeft_eq_add _ _ _ hres
      rw [hres']
      have hlt : u >>> 7 < u := by
        rw [hu7] at h0 ⊢
        exact Nat.div_lt_self (by omega) (by norm_num)
      have hres2 : result + b * 2 ^ shift < 2 ^ (shift + 7) := by
        have h1 : result + b * 2 ^ shift < (1 + b) * 2 ^ shift := by
          have := Nat.two_pow_pos shift
          nlinarith
        have h2 : (1 + b) * 2 ^ shift ≤ 128 * 2 ^ shift :=
          Nat.mul_le_mul_right _ (by omega)
        have h3 : (128 : Nat) * 2 ^ shift = 2 ^ (shift + 7) := by
          rw [pow_add]
          ring
        omega
      have hstep : pre ++ ((b ||| 128) :: (encode_varint_value (u >>> 7) ++ rest))
          = (pre ++ [b ||| 128]) ++ (encode_varint_value (u >>> 7) ++ rest) := by
        simp
      have hoff2 : pre.length + 1 = (pre ++ [b ||| 128]).length := by
        simp
      rw [hstep, hoff2, IH (u >>> 7) hlt (pre ++ [b ||| 128]) rest _ _ hres2]
      have hval : result + b * 2 ^ shift + (u >>> 7) * 2 ^ (shift + 7)
          = result + u * 2 ^ shift := by
        rw [hbdef, and_127_eq_mod, hu7, pow_add]
        have h2 : (2 : Nat) ^ 7 = 128 := by norm_num
        rw [h2]
        have hmain : (u % 128) * 2 ^ shift + u / 128 * (2 ^ shift * 128)
            = u * 2 ^ shift := by
          have hsplit : u % 128 + 128 * (u / 128) = u := Nat.mod_add_div u 128
          calc (u % 128) * 2 ^ shift + u / 128 * (2 ^ shift * 128)
              = (u % 128 + 128 * (u / 128)) * 2 ^ shift := by ring
            _ = u * 2 ^ shift := by rw [hsplit]
        omega
      rw [hval]
      simp only [Option.some.injEq, Prod.mk.injEq, List.length_append,
        List.length_cons, List.length_nil, List.length_singleton, true_and]
      omega

theorem and_2pow31_eq_zero_iff (u : Nat) :
    (u &&& 2147483648 = 0) ↔ u.testBit 31 = false := by
  rw [show (2147483648 : Nat) = 2 ^ 31 by norm_num, Nat.and_two_pow]
  rcases Bool.eq_false_or_eq_true (u.testBit 31) with hb | hb
  · simp [hb]
  · simp [hb]

theorem read_varint_encode_varint (n : Int)
    (h1 : -2147483648 ≤ n) (h2 : n < 2147483648) :
    read_varint (encode_varint n) 0 = some (n, (encode_varint n).length) := by
  rw [read_varint, encode_varint]
  set u := (if n < 0 then n + 4294967296 else n).toNat with hu
  have hloop := read_varint_loop_encode u [] [] 0 0 (by norm_num)
  simp only [List.nil_append, List.append_nil, List.length_nil, Nat.zero_add,
    pow_zero, Nat.mul_one] at hloop
  rw [hloop]
  dsimp only
  have hpow : (2 : Nat) ^ 31 = 2147483648 := by norm_num
  rcases Decidable.em (n < 0) with hneg | hneg
  · have huval : (u : Int) = n + 4294967296 := by
      rw [hu, if_pos hneg]
      omega
    have hbit : u.testBit 31 = true := by
      rw [Nat.testBit_to_div_mod]
      have hq : u / 2 ^ 31 = 1 := by
        rw [hpow]
        omega
      rw [hq]
      simp
    have hand : ¬(u &&& 2147483648 = 0) := by
      rw [and_2pow31_eq_zero_iff, hbit]
      simp
    rw [if_neg hand]
    have hvn : (u : Int) - 4294967296 = n := by omega
    rw [hvn]
  · have huval : (u : Int) = n := by
      rw [hu, if_neg hneg]
      omega
    have hbit : u.testBit 31 = false := by
      apply Nat.testBit_lt_two_pow
      rw [hpow]
      omega
    have hand : u &&& 2147483648 = 0 := (and_2pow31_eq_zero_iff u).mpr hbit
    rw [if_pos hand, huval]

/-! ### Properties of the `_recv_exact` loop (claim C3) -/

theorem recv_exact_length : ∀ (n : Nat) (st : ByteStream) (buf : List Nat)
    (st' : ByteStream), recv_exact st n = some (buf, st') → buf.length = n := by
  intro n
  induction n using Nat.strong_induction_on with
  | _ n IH =>
    intro st buf st' h
    rw [recv_exact.eq_def] at h
    rcases Decidable.em (n = 0) with h0 | h0
    · rw [dif_pos h0] at h
      cases h
      simp [h0]
    · rw [dif_neg h0] at h
      simp only [] at h
      rcases Decidable.em ((recv st n).1 = []) with hc | hc
      · rw [dif_pos hc] at h
        exact absurd h (by simp)
      · rw [dif_neg hc] at h
        rcases hrec : recv_exact (recv st n).2 (n - (recv st n).1.length)
          with _ | ⟨r, st''⟩
        · rw [hrec] at h
          exact absurd h (by simp)
        · rw [hrec] at h
          simp only [Option.some.injEq, Prod.mk.injEq] at h
          rcases h with ⟨hbuf, hst⟩
          have hcl : (recv st n).1.length ≤ n := recv_fst_length_le st n
          have hcp : 0 < (recv st n).1.length := List.length_pos.mpr hc
          have hr := IH (n - (recv st n).1.length) (by omega) _ _ _ hrec
          rw [← hbuf, List.length_append, hr]
          omega

theorem recv_exact_closed : ∀ (n : Nat) (st : ByteStream),
    (∀ s ∈ st.segs, s ≠ []) → st.segs.flatten.length < n →
    recv_exact st n = none := by
  intro n
  induction n using Nat.strong_induction_on with
  | _ n IH =>
    intro st hne htot
    have h0 : n ≠ 0 := by omega
    rw [recv_exact.eq_def, dif_neg h0]
    simp only []
    rcases hsegs : st.segs with _ | ⟨s, rest⟩
    · have hchunk : (recv st n).1 = [] := by
        rw [recv]
        rw [hsegs]
      rw [dif_pos hchunk]
    · have hsne : s ≠ [] := hne s (by rw [hsegs]; exact List.mem_cons_self s rest)
      have hsp : 0 < s.length := List.length_pos.mpr hsne
      rw [hsegs, List.flatten_cons, List.length_append] at htot
      have hsl : s.length < n := by omega
      have hchunk : (recv st n).1 = s := by
        rw [recv, hsegs]
        simp only []
        exact List.take_all_of_le (by omega)
      have hdropnil : s.drop n = [] := List.drop_eq_nil_of_le (by omega)
      have hst2 : (recv st n).2 = ⟨rest⟩ := by
        rw [recv, hsegs]
        simp only [hdropnil, if_pos]
      rw [dif_neg (hchunk ▸ hsne)]
      have hrec : recv_exact (recv st n).2 (n - (recv st n).1.length) = none := by
        rw [hst2, hchunk]
        apply IH (n - s.length) (by omega)
        · intro x hx
          exact hne x (by rw [hsegs]; exact List.mem_cons_of_mem s hx)
        · show rest.flatten.length < n - s.length
          omega
      rw [hrec]

theorem recv_exact_complete : ∀ (n : Nat) (st : ByteStream),
    (∀ s ∈ st.segs, s ≠ []) → n ≤ st.segs.flatten.length →
    ∃ st', recv_exact st n = some (st.segs.flatten.take n, st')
      ∧ ∀ s ∈ st'.segs, s ≠ [] := by
  intro n
  induction n using Nat.strong_induction_on with
  | _ n IH =>
    intro st hne htot
    rcases Decidable.em (n = 0) with h0 | h0
    · refine ⟨st, ?_, hne⟩
      subst h0
      rw [recv_exact_zero]
      simp
    · rcases hsegs : st.segs with _ | ⟨s, rest⟩
      · exfalso
        rw [hsegs] at htot
        simp at htot
        omega
      · have hsne : s ≠ [] := hne s (by rw [hsegs]; exact List.mem_cons_self s rest)
        have hsp : 0 < s.length := List.length_pos.mpr hsne
        rw [hsegs, List.flatten_cons, List.length_append] at htot
        have hchunkval : (recv st n).1 = s.take n := by
          rw [recv, hsegs]
        have hchunkne : (recv st n).1 ≠ [] := by
          rw [hchunkval]
          rw [Ne, List.take_eq_nil_iff]
          push_neg
          exact ⟨h0, hsne⟩
        rw [recv_exact.eq_def, dif_neg h0]
        simp only []
        rw [dif_neg hchunkne]
        rcases Decidable.em (s.length ≤ n) with hA | hB
        · have htake : s.take n = s := List.take_all_of_le hA
          have hdropnil : s.drop n = [] := List.drop_eq_nil_of_le hA
          have hst2 : (recv st n).2 = ⟨rest⟩ := by
            rw [recv, hsegs]
            simp only [hdropnil, if_pos]
          have hrest_ne : ∀ x ∈ (⟨rest⟩ : ByteStream).segs, x ≠ [] := by
            intro x hx
            exact hne x (by rw [hsegs]; exact List.mem_cons_of_mem s hx)
          have hrest_tot : n - s.length ≤ (⟨rest⟩ : ByteStream).segs.flatten.length := by
            simp only []
            omega
          obtain ⟨st'', hrec, hinv⟩ :=
            IH (n - s.length) (by omega) ⟨rest⟩ hrest_ne hrest_tot
          refine ⟨st'', ?_, hinv⟩
          rw [hchunkval, htake, hst2]
          have hrec' : (⟨rest⟩ : ByteStream).segs.flatten = rest.flatten := rfl
          rw [hrec' ] at hrec
          rw [hrec]
          dsimp only
          rw [List.flatten_cons, List.take_append_eq_append_take,
            List.take_all_of_le hA]
        · push_neg at hB
          have hlenchunk : (s.take n).length = n := List.length_take_of_le (by omega)
          have hdropne : s.drop n ≠ [] := by
            rw [Ne, List.drop_eq_nil_iff]
            omega
          have hst2 : (recv st n).2 = ⟨s.drop n :: rest⟩ := by
            rw [recv, hsegs]
            dsimp only
            rw [if_neg hdropne]
          rw [hchunkval, hlenchunk, Nat.sub_self, hst2, recv_exact_zero]
          refine ⟨⟨s.drop n :: rest⟩, ?_, ?_⟩
          · dsimp only
            rw [List.flatten_cons, List.take_append_of_le_length (by omega)]
            simp
          · intro x hx
            rcases List.mem_cons.mp hx with hx1 | hx2
            · rw [hx1]
              exact hdropne
            · exact hne x (by rw [hsegs]; exact List.mem_cons_of_mem s hx2)

/-- `_send_rcon_command._read` (modules/minecraft/lifecycle.py:1081-1089):
a single `recv(4)` for the size and a single `recv(size)` for the body —
no loop.  `none` models the uncaught `struct.error` when fewer than 4 body
bytes arrive; a short size read returns `(-1, "")`. -/
def mc_read (st : ByteStream) : Option ((Int × List Nat) × ByteStream) :=
  let raw_size := (recv st 4).1
  let st1 := (recv st 4).2
  if raw_size.length < 4 then some ((-1, []), st1)
  else
    let size := unpack_i32 raw_size
    let raw := (recv st1 size.toNat).1
    let st2 := (recv st1 size.toNat).2
    if raw.length < 4 then none
    else
      let req_id := unpack_i32 (raw.take 4)
      let payload :=
        if raw.length > 10 then ((raw.drop 8).dropLast).dropLast else []
      some ((req_id, payload), st2)

/-- Collection loop of `PalworldRconClient._read_packet`
(modules/palworld/lifecycle.py:152-158): loop while short, but `break` (keep
the partial buffer) when the stream closes. -/
def palworld_collect (st : ByteStream) (size : Nat) (acc : List Nat) :
    List Nat × ByteStream :=
  if hlt : acc.length < size then
    let chunk := (recv st (size - acc.length)).1
    if chunk = [] then (acc, (recv st (size - acc.length)).2)
    else palworld_collect (recv st (size - acc.length)).2 size (acc ++ chunk)
  else (acc, st)
termination_by size - acc.length
decreasing_by
  simp only [List.length_append]
  have : 0 < (recv st (size - acc.length)).1.length := by
    rename_i hchunk
    exact List.length_pos.mpr hchunk
  have := recv_fst_length_le st (size - acc.length)
  omega

/-- `PalworldRconClient._read_packet` (modules/palworld/lifecycle.py:142-174):
single `recv(4)` for the size (short read -> struct.error -> `none`), then the
collection loop, then parse whatever was collected as long as ≥ 8 bytes. -/
def palworld_read_packet (st : ByteStream) :
    Option ((Int × Int × List Nat) × ByteStream) :=
  let size_data := (recv st 4).1
  let st1 := (recv st 4).2
  if size_data = [] then none
  else if size_data.length < 4 then none
  else
    let size := unpack_i32 size_data
    let collected := (palworld_collect st1 size.toNat []).1
    let st2 := (palworld_collect st1 size.toNat []).2
    if collected.length < 8 then none
    else
      let packet_id := unpack_i32 (collected.take 4)
      let packet_type := unpack_i32 ((collected.drop 4).take 4)
      let payload := ((collected.drop 8).dropLast).dropLast
      some ((packet_id, packet_type, payload), st2)

/-! ### RconClient.connect and _authenticate (claim C5) -/

/-- The fields of `RconClient` that the connect path mutates: the socket
(holding its pending incoming bytes) and the `authenticated` flag;
`sock = none` means no open socket. -/
structure RconState where
  sock : Option ByteStream
  authenticated : Bool
deriving Repr

/-- `RconClient.connect` (extensions/rcon.py:49-69) after a successful TCP
connect against a server whose pending reply bytes are `replies`.  With a
configured password it runs `_authenticate` (extensions/rcon.py:104-114):
when the read fails or the echoed id is `-1` it returns `False`; on these
paths `connect` returns `False` without calling `_cleanup`, so
`self.socket` keeps the open socket. -/
def rcon_connect (password : String) (replies : ByteStream) :
    Bool × RconState :=
  if password ≠ "" then
    match read_packet replies with
    | none => (false, { sock := some replies, authenticated := false })
    | some ((pid, _ptype, _payload), st') =>
      if pid = -1 then (false, { sock := some st', authenticated := false })
      else (true, { sock := some st', authenticated := true })
  else (true, { sock := some replies, authenticated := false })

/-! ### JSON values, handlers and the dispatcher entry points (C6, C7, C10) -/

/-- A JSON document. -/
inductive J where
  | jnull
  | jbool (b : Bool)
  | jnum (n : Int)
  | jstr (s : String)
  | jarr (elems : List J)
  | jobj (fields : List (String × J))
deriving Repr

/-- Python `config[key]` on a JSON value: a field of an object, otherwise
(`TypeError` / `KeyError`) nothing. -/
def jlookup : J → String → Option J
  | J.jobj fields, k => fields.lookup k
  | _, _ => none

/-- What one dispatcher process invocation emits: exactly one JSON document
on stdout, or an uncaught exception (no JSON result at all). -/
inductive ProcOut where
  | json (v : J)
  | crash (e : String)
deriving Repr

/-- A handler outcome: a returned JSON result or a raised exception. -/
abbrev Handler := J → Except String J

/-- `main` of modules/_template/lifecycle.py (lines 237-272), after the argv
check: unknown names are rejected before stdin is read; malformed (or empty)
stdin JSON is replaced by the empty config `{}`; the handler call is wrapped
in try/except and a raise becomes a failure JSON result. -/
def template_dispatch (func_name : String)
    (registry : List (String × Handler))
    (stdin_json : Except String J) : ProcOut :=
  match registry.lookup func_name with
  | none => ProcOut.json (J.jobj
      [("success", J.jbool false),
       ("message", J.jstr ("Unknown function: " ++ func_name)),
       ("available", J.jarr (registry.map (fun p => J.jstr p.1)))])
  | some fn =>
    let config := match stdin_json with
      | Except.ok c => c
      | Except.error _ => J.jobj []
    match fn config with
    | Except.ok result => ProcOut.json result
    | Except.error e => ProcOut.json (J.jobj
        [("success", J.jbool false),
         ("message", J.jstr ("Error in " ++ func_name ++ ": " ++ e))])

/-- `__main__` of modules/minecraft/lifecycle.py (lines 1487-1506), after the
argv-length check: config comes from `argv[2]`; malformed JSON short-circuits;
the handler call `fn(config)` is NOT wrapped in any try/except. -/
def mc_dispatch (function_name : String) (argv_json : Except String J)
    (registry : List (String × Handler)) : ProcOut :=
  match argv_json with
  | Except.error _ => ProcOut.json (J.jobj
      [("success", J.jbool false), ("message", J.jstr "Invalid JSON config")])
  | Except.ok config =>
    match registry.lookup function_name with
    | some fn =>
      match fn config with
      | Except.ok result => ProcOut.json result
      | Except.error e => ProcOut.crash e
    | none => ProcOut.json (J.jobj
        [("success", J.jbool false),
         ("message", J.jstr ("Unknown function: " ++ function_name))])

/-- `main` of extensions/docker/compose_manager.py (lines 775-800), after the
argv check: registry lookup first, then stdin JSON (malformed short-circuits
with the decode error embedded), then `func(config)` outside any
try/except. -/
def compose_dispatch (func_name : String)
    (registry : List (String × Handler))
    (stdin_json : Except String J) : ProcOut :=
  match registry.lookup func_name with
  | none => ProcOut.json (J.jobj
      [("error", J.jstr ("Unknown function: " ++ func_name))])
  | some func =>
    match stdin_json with
    | Except.error e => ProcOut.json (J.jobj
        [("error", J.jstr ("Invalid JSON config: " ++ e))])
    | Except.ok config =>
      match func config with
      | Except.ok result => ProcOut.json result
      | Except.error e => ProcOut.crash e

/-- `cleanup` of extensions/docker/compose_manager.py (lines 151-163):
`config["instance_dir"]`, run `docker compose down` (outcome `down_ok`),
and return handled/success unconditionally — a down failure is not
surfaced. -/
def compose_cleanup (config : J) (down_ok : Bool) : Except String J :=
  match jlookup config "instance_dir" with
  | none => Except.error "TypeError or KeyError: instance_dir"
  | some _ =>
    Except.ok (J.jobj
      [("handled", J.jbool true), ("success", J.jbool true),
       ("message", J.jstr "Docker Compose down completed")])

/-! ### MinecraftPing.ping accumulation loop and parser (claim C8) -/

/-- `MinecraftPing._parse_response` (modules/minecraft/lifecycle.py:599-611):
outer varint length (incomplete frame -> `None`), packet id must be 0, inner
varint length, then `json.loads` of the sliced document (modelled by the
`jsonParse` parameter; its decode/JSON errors are caught, giving `none`). -/
def parse_response (jsonParse : List Nat → Option J) (data : List Nat) :
    Option J :=
  match read_varint data 0 with
  | none => none
  | some (pkt_len, offset1) =>
    if (data.length : Int) < (offset1 : Int) + pkt_len then none
    else
      match read_varint data offset1 with
      | none => none
      | some (pkt_id, offset2) =>
        if pkt_id ≠ 0 then none
        else
          match read_varint data offset2 with
          | none => none
          | some (json_len, offset3) =>
            jsonParse ((data.drop offset3).take json_len.toNat)

/-- The receive loop of `MinecraftPing.ping`
(modules/minecraft/lifecycle.py:548-563): accumulate chunks, after each chunk
try `_parse_response`, treat any failure as need-more-data, and return `None`
(offline) when the peer closes. -/
def ping_loop (jsonParse : List Nat → Option J) :
    List (List Nat) → List Nat → Option J
  | [], _ => none
  | chunk :: rest, data =>
    if chunk = [] then none
    else
      match parse_response jsonParse (data ++ chunk) with
      | some parsed => some parsed
      | none => ping_loop jsonParse rest (data ++ chunk)

/-- `MinecraftPing.ping` (modules/minecraft/lifecycle.py:523-565): a failed
connect (or any socket error / timeout) is caught and gives `None`;
otherwise the receive loop runs over the delivered chunks. -/
def ping (connect_ok : Bool) (jsonParse : List Nat → Option J)
    (chunks : List (List Nat)) : Option J :=
  if connect_ok then ping_loop jsonParse chunks [] else none

/-! ### Docker provisioning pipeline (claim C9) -/

/-- The external outcomes `provision` reacts to: Docker engine readiness
(with its message), whether a steamcmd install step applies, the steamcmd
outcome (`Except.error` = raised exception; `Except.ok (success, error)` =
returned result), and whether the module config has a docker image. -/
structure ProvisionEnv where
  engine_ready : Bool
  engine_msg : String
  method_steamcmd : Bool
  app_id_present : Bool
  steamcmd_result : Except String (Bool × String)
  has_image : Bool

/-- A pipeline outcome as `provision` returns it. -/
inductive StepResult where
  | failure (error : String)
  | success (message : String)
deriving Repr, DecidableEq

/-- `provision` of extensions/docker/compose_manager.py (lines 492-591),
paired with the list of steps that started: engine check, optional steamcmd
install, compose generation.  Each failure returns at once with a
context-prefixed error. -/
def provision (env : ProvisionEnv) : StepResult × List String :=
  if ¬env.engine_ready then
    (StepResult.failure ("Docker를 사용할 수 없습니다: " ++ env.engine_msg),
      ["engine"])
  else if env.method_steamcmd ∧ env.app_id_present then
    match env.steamcmd_result with
    | Except.error e =>
      (StepResult.failure ("SteamCMD 실행 실패: " ++ e), ["engine", "steamcmd"])
    | Except.ok (ok, err) =>
      if ¬ok then
        (StepResult.failure ("SteamCMD 설치 실패: " ++ err),
          ["engine", "steamcmd"])
      else if ¬env.has_image then
        (StepResult.failure "모듈에 [docker] image 설정이 없습니다",
          ["engine", "steamcmd", "compose"])
      else
        (StepResult.success "Docker 프로비저닝 완료: docker-compose.yml 생성됨",
          ["engine", "steamcmd", "compose"])
  else if ¬env.has_image then
    (StepResult.failure "모듈에 [docker] image 설정이 없습니다",
      ["engine", "compose"])
  else
    (StepResult.success "Docker 프로비저닝 완료: docker-compose.yml 생성됨",
      ["engine", "compose"])

/-! ### Claim theorems -/

/-- C1: for every payload of at most 4096 bytes and every 32-bit request id
and packet type, `read_packet` (RconClient._read_packet) applied to the frame
built by `send_packet` (RconClient._send_packet) yields exactly that id, type
and payload, byte for byte. -/
theorem C1_rcon_frame_roundtrip (r t : Int) (P : List Nat)
    (hr1 : -2147483648 ≤ r) (hr2 : r < 2147483648)
    (ht1 : -2147483648 ≤ t) (ht2 : t < 2147483648)
    (hP : P.length ≤ 4096) :
    read_packet ⟨[send_packet r t P]⟩ = some ((r, t, P), ⟨[]⟩) :=
  read_packet_send_packet r t P hr1 hr2 ht1 ht2 hP

/-- Witness for C1 at request id 5, type 2, payload "AB". -/
theorem C1_rcon_frame_roundtrip_witness :
    (-2147483648 ≤ (5 : Int)) ∧ ((5 : Int) < 2147483648)
    ∧ (([65, 66] : List Nat).length ≤ 4096)
    ∧ read_packet ⟨[send_packet 5 2 [65, 66]]⟩
        = some ((5, 2, [65, 66]), ⟨[]⟩) :=
  ⟨by norm_num, by norm_num, by norm_num,
    C1_rcon_frame_roundtrip 5 2 [65, 66] (by norm_num) (by norm_num)
      (by norm_num) (by norm_num) (by norm_num)⟩

/-- C2: decoding with `read_varint` (MinecraftPing._read_varint) at offset 0
the bytes produced by `encode_varint` (MinecraftPing._encode_varint) returns
every 32-bit signed integer unchanged, negative values being biased by `2^32`
on encode and un-biased on decode when bit 31 is set. -/
theorem C2_varint_roundtrip (n : Int)
    (h1 : -2147483648 ≤ n) (h2 : n < 2147483648) :
    read_varint (encode_varint n) 0 = some (n, (encode_varint n).length) :=
  read_varint_encode_varint n h1 h2

/-- Witness for C2 at the handshake sentinel -1. -/
theorem C2_varint_roundtrip_witness :
    (-2147483648 ≤ (-1 : Int)) ∧ ((-1 : Int) < 2147483648)
    ∧ read_varint (encode_varint (-1)) 0
        = some (-1, (encode_varint (-1)).length) :=
  ⟨by norm_num, by norm_num,
    C2_varint_roundtrip (-1) (by norm_num) (by norm_num)⟩

/-- C3 counterexample: the claim is false for two of the three RCON readers.
`mc_read` (the minecraft helper) announces size 12 but returns a packet after
a single 10-byte `recv`, with payload `[]` although the frame carries
`[65, 66]`; `palworld_read_packet` returns a packet built from only 9 of the
announced 12 bytes when the stream closes early, instead of reporting
failure. -/
theorem C3_single_recv_readers_counterexample :
    mc_read ⟨[[12, 0, 0, 0], [2, 0, 0, 0, 0, 0, 0, 0, 65, 66], [0, 0]]⟩
      = some ((2, []), ⟨[[0, 0]]⟩)
    ∧ palworld_read_packet ⟨[[12, 0, 0, 0], [2, 0, 0, 0, 0, 0, 0, 0, 65]]⟩
      = some ((2, 0, []), ⟨[]⟩) := by
  constructor
  · rfl
  · simp [palworld_read_packet, palworld_collect, recv, unpack_i32]

/-- C3 amended: the exact-read discipline holds for `recv_exact`
(RconClient._recv_exact) only: a successful read returns exactly `n` bytes,
an early close yields `none` rather than partial data, and the loop collects
the full prefix across any chunking of the stream. -/
theorem C3_recv_exact_loop_amended :
    (∀ (n : Nat) (st : ByteStream) (buf : List Nat) (st' : ByteStream),
        recv_exact st n = some (buf, st') → buf.length = n)
    ∧ (∀ (n : Nat) (st : ByteStream), (∀ s ∈ st.segs, s ≠ []) →
        st.segs.flatten.length < n → recv_exact st n = none)
    ∧ (∀ (n : Nat) (st : ByteStream), (∀ s ∈ st.segs, s ≠ []) →
        n ≤ st.segs.flatten.length →
        ∃ st', recv_exact st n = some (st.segs.flatten.take n, st')
          ∧ ∀ s ∈ st'.segs, s ≠ []) :=
  ⟨recv_exact_length, recv_exact_closed, recv_exact_complete⟩

/-- Witness for C3's amended theorem: 3 bytes split across two chunks are
collected whole by the loop. -/
theorem C3_recv_exact_loop_amended_witness :
    (∀ s ∈ (⟨[[1], [2, 3]]⟩ : ByteStream).segs, s ≠ [])
    ∧ (3 ≤ (⟨[[1], [2, 3]]⟩ : ByteStream).segs.flatten.length)
    ∧ ∃ st', recv_exact ⟨[[1], [2, 3]]⟩ 3 = some ([1, 2, 3], st')
        ∧ ∀ s ∈ st'.segs, s ≠ [] := by
  refine ⟨by simp, by simp, ?_⟩
  have h := C3_recv_exact_loop_amended.2.2 3 ⟨[[1], [2, 3]]⟩ (by simp) (by simp)
  simpa using h

/-- C4: every packet `send_packet` (RconClient._send_packet) and
`make_packet` (PalworldRconClient._make_packet) builds is the 4-byte LE
length prefix encoding `4+4+len(payload)+2`, then the LE request id, the LE
packet type, the payload and exactly two null bytes. -/
theorem C4_rcon_packet_layout (r t : Int) (P : List Nat) :
    send_packet r t P
      = pack_i32 ((4 : Int) + 4 + (P.length : Int) + 2) ++ pack_i32 r
          ++ pack_i32 t ++ P ++ [0, 0]
    ∧ make_packet r t P = send_packet r t P
    ∧ ((P.length : Int) + 10 < 2147483648 →
        unpack_i32 (pack_i32 ((4 : Int) + 4 + (P.length : Int) + 2))
          = 4 + 4 + (P.length : Int) + 2) := by
  refine ⟨?_, rfl, ?_⟩
  · simp only [send_packet, List.append_assoc]
    have harg : ((pack_i32 r ++ (pack_i32 t ++ (P ++ [0, 0]))).length : Int)
        = (4 : Int) + 4 + (P.length : Int) + 2 := by
      simp [List.length_append, pack_i32_length]
      push_cast
      omega
    rw [harg]
  · intro h
    apply unpack_pack_i32
    · omega
    · omega

/-- Witness for C4 at id 1, type 3, payload "a". -/
theorem C4_rcon_packet_layout_witness :
    ((([97] : List Nat).length : Int) + 10 < 2147483648)
    ∧ unpack_i32 (pack_i32 ((4 : Int) + 4 + (([97] : List Nat).length : Int) + 2))
        = 4 + 4 + (([97] : List Nat).length : Int) + 2 :=
  ⟨by norm_num, (C4_rcon_packet_layout 1 3 [97]).2.2 (by norm_num)⟩

/-- C5: the claim is right and the code wrong.  When the server echoes
request id -1 (wrong password), `rcon_connect` (RconClient.connect) returns
`False` via the early `return False` at rcon.py:62, which skips `_cleanup`:
the state still holds the open socket, contradicting the spec's
"no open socket on this exit path". -/
theorem C5_wrong_password_leaves_socket_open :
    (rcon_connect "pw" ⟨[send_packet (-1) 2 []]⟩).1 = false
    ∧ (rcon_connect "pw" ⟨[send_packet (-1) 2 []]⟩).2.sock ≠ none := by
  have hrp : read_packet ⟨[send_packet (-1) 2 []]⟩
      = some (((-1 : Int), (2 : Int), ([] : List Nat)), ⟨[]⟩) :=
    read_packet_send_packet (-1) 2 [] (by norm_num) (by norm_num)
      (by norm_num) (by norm_num) (by norm_num)
  unfold rcon_connect
  rw [hrp]
  simp

/-- C6 counterexample: the compose_manager dispatcher calls the registered
handler outside any try/except, so a handler exception (here `cleanup` on a
config that is a JSON array) crosses the process boundary as a crash instead
of a failure JSON result. -/
theorem C6_uncaught_handler_exception_counterexample :
    compose_dispatch "cleanup" [("cleanup", fun c => compose_cleanup c true)]
      (Except.ok (J.jarr []))
      = ProcOut.crash "TypeError or KeyError: instance_dir" := rfl

/-- C6 amended: only the template dispatcher converts a handler exception to
a failure JSON result (and can never crash); the minecraft and
compose_manager dispatchers propagate the handler's exception uncaught. -/
theorem C6_dispatcher_exception_handling_amended :
    (∀ (func_name : String) (registry : List (String × Handler))
        (stdin_json : Except String J) (e : String),
        template_dispatch func_name registry stdin_json ≠ ProcOut.crash e)
    ∧ (∀ (func_name : String) (registry : List (String × Handler))
        (stdin_json : Except String J) (fn : Handler) (e : String),
        registry.lookup func_name = some fn →
        fn (match stdin_json with
            | Except.ok c => c
            | Except.error _ => J.jobj []) = Except.error e →
        template_dispatch func_name registry stdin_json
          = ProcOut.json (J.jobj
              [("success", J.jbool false),
               ("message", J.jstr ("Error in " ++ func_name ++ ": " ++ e))]))
    ∧ (∀ (function_name : String) (registry : List (String × Handler))
        (config : J) (fn : Handler) (e : String),
        registry.lookup function_name = some fn → fn config = Except.error e →
        mc_dispatch function_name (Except.ok config) registry
          = ProcOut.crash e)
    ∧ (∀ (func_name : String) (registry : List (String × Handler))
        (config : J) (fn : Handler) (e : String),
        registry.lookup func_name = some fn → fn config = Except.error e →
        compose_dispatch func_name registry (Except.ok config)
          = ProcOut.crash e) := by
  refine ⟨?_, ?_, ?_, ?_⟩
  · intro func_name registry stdin_json e
    unfold template_dispatch
    rcases hl : registry.lookup func_name with _ | fn
    · simp
    · rcases hf : fn (match stdin_json with
          | Except.ok c => c
          | Except.error _ => J.jobj []) with r | r
      <;> simp [hf]
  · intro func_name registry stdin_json fn e hl hf
    simp [template_dispatch, hl, hf]
  · intro function_name registry config fn e hl hf
    simp [mc_dispatch, hl, hf]
  · intro func_name registry config fn e hl hf
    simp [compose_dispatch, hl, hf]

/-- Witness for C6's amended theorem: the compose dispatcher crash at the
concrete raising handler. -/
theorem C6_dispatcher_exception_handling_amended_witness :
    (([("cleanup", fun c => compose_cleanup c true)]
        : List (String × Handler)).lookup "cleanup"
      = some (fun c => compose_cleanup c true))
    ∧ ((fun c => compose_cleanup c true) (J.jarr [])
      = Except.error "TypeError or KeyError: instance_dir")
    ∧ compose_dispatch "cleanup"
        [("cleanup", fun c => compose_cleanup c true)] (Except.ok (J.jarr []))
      = ProcOut.crash "TypeError or KeyError: instance_dir" :=
  ⟨rfl, rfl,
    C6_dispatcher_exception_handling_amended.2.2.2 "cleanup"
      [("cleanup", fun c => compose_cleanup c true)] (J.jarr []) _ _ rfl rfl⟩

/-- C7 counterexample: the template dispatcher does not short-circuit on
malformed stdin JSON — it substitutes the empty config and still invokes the
registered handler, emitting the handler's result instead of an error
object. -/
theorem C7_template_runs_handler_on_malformed_stdin_counterexample :
    template_dispatch "validate"
      [("validate", fun _ => Except.ok (J.jstr "HANDLER_RAN"))]
      (Except.error "Expecting value: line 1 column 1 (char 0)")
      = ProcOut.json (J.jstr "HANDLER_RAN") := rfl

/-- C7 amended: the compose_manager dispatcher short-circuits malformed
stdin to a JSON error object before any handler runs; the template
dispatcher instead behaves exactly as if the config were `{}`, invoking the
handler anyway. -/
theorem C7_malformed_stdin_amended :
    (∀ (func_name : String) (registry : List (String × Handler))
        (fn : Handler) (e : String),
        registry.lookup func_name = some fn →
        compose_dispatch func_name registry (Except.error e)
          = ProcOut.json (J.jobj
              [("error", J.jstr ("Invalid JSON config: " ++ e))]))
    ∧ (∀ (func_name : String) (registry : List (String × Handler)) (e : String),
        template_dispatch func_name registry (Except.error e)
          = template_dispatch func_name registry (Except.ok (J.jobj []))) := by
  constructor
  · intro func_name registry fn e hl
    simp [compose_dispatch, hl]
  · intro func_name registry e
    unfold template_dispatch
    rcases hl : registry.lookup func_name with _ | fn
    · rfl
    · rfl

/-- Witness for C7's amended theorem at a concrete registry. -/
theorem C7_malformed_stdin_amended_witness :
    (([("status", fun _ => Except.ok J.jnull)]
        : List (String × Handler)).lookup "status"
      = some (fun _ => Except.ok J.jnull))
    ∧ compose_dispatch "status" [("status", fun _ => Except.ok J.jnull)]
        (Except.error "Expecting value")
      = ProcOut.json (J.jobj
          [("error", J.jstr ("Invalid JSON config: " ++ "Expecting value"))]) :=
  ⟨rfl, C7_malformed_stdin_amended.1 "status"
    [("status", fun _ => Except.ok J.jnull)] _ "Expecting value" rfl⟩

/-- C8: `ping` returns the offline result `none` when the connect fails and
when the peer closes before any accumulated prefix parses; a structurally
incomplete frame makes `parse_response` return `none` (need more data), upon
which the loop keeps accumulating instead of erroring. -/
theorem C8_ping_offline_and_need_more_data :
    (∀ (jp : List Nat → Option J) (chunks : List (List Nat)),
        ping false jp chunks = none)
    ∧ (∀ (jp : List Nat → Option J) (data : List Nat),
        ping_loop jp [] data = none)
    ∧ (∀ (jp : List Nat → Option J) (L : Int) (off : Nat) (data : List Nat),
        read_varint data 0 = some (L, off) →
        (data.length : Int) < (off : Int) + L →
        parse_response jp data = none)
    ∧ (∀ (jp : List Nat → Option J) (chunk : List Nat)
        (rest : List (List Nat)) (data : List Nat),
        chunk ≠ [] → parse_response jp (data ++ chunk) = none →
        ping_loop jp (chunk :: rest) data
          = ping_loop jp rest (data ++ chunk)) := by
  refine ⟨?_, ?_, ?_, ?_⟩
  · intro jp chunks
    simp [ping]
  · intro jp data
    rfl
  · intro jp L off data h1 h2
    simp [parse_response, h1, h2]
  · intro jp chunk rest data hne hparse
    simp [ping_loop, hne, hparse]

/-- Witness for C8's incomplete-frame conjunct: one byte announcing a 5-byte
frame parses as need-more-data. -/
theorem C8_ping_offline_and_need_more_data_witness :
    read_varint [5] 0 = some (5, 1)
    ∧ ((([5] : List Nat).length : Int) < (1 : Int) + 5)
    ∧ parse_response (fun _ => none) [5] = none := by
  have hread : read_varint [5] 0 = some (5, 1) := by
    have hand : (5 : Nat) &&& 128 = 0 := and_128_eq_zero (by norm_num)
    have hand127 : (5 : Nat) &&& 127 = 5 := by
      rw [and_127_eq_mod]
    have h31 : (5 : Nat) &&& 2147483648 = 0 :=
      (and_2pow31_eq_zero_iff 5).mpr
        (Nat.testBit_lt_two_pow (by norm_num))
    rw [read_varint, read_varint_loop]
    simp [hand, hand127, h31]
  exact ⟨hread, by norm_num,
    C8_ping_offline_and_need_more_data.2.2.1 (fun _ => none) 5 1 [5] hread
      (by norm_num)⟩

/-- C9 counterexample: when the steamcmd step fails with error "boom", the
pipeline aborts (the compose step never starts) but the surfaced error is
the context-prefixed "SteamCMD 설치 실패: boom", not the step's own error
"boom" verbatim. -/
theorem C9_error_not_verbatim_counterexample :
    provision { engine_ready := true,
                engine_msg := "",
                method_steamcmd := true,
                app_id_present := true,
                steamcmd_result := Except.ok (false, "boom"),
                has_image := true }
      = (StepResult.failure ("SteamCMD 설치 실패: " ++ "boom"),
          ["engine", "steamcmd"])
    ∧ ("SteamCMD 설치 실패: " ++ "boom") ≠ "boom" :=
  ⟨rfl, by decide⟩

/-- C9 amended: on a step failure `provision` aborts at once — the returned
step list shows no later step started — and the surfaced error is the
failing step's error embedded verbatim behind a fixed context prefix. -/
theorem C9_pipeline_abort_amended :
    (∀ env : ProvisionEnv, env.engine_ready = false →
        provision env
          = (StepResult.failure
              ("Docker를 사용할 수 없습니다: " ++ env.engine_msg), ["engine"]))
    ∧ (∀ (env : ProvisionEnv) (err : String), env.engine_ready = true →
        env.method_steamcmd = true → env.app_id_present = true →
        env.steamcmd_result = Except.ok (false, err) →
        provision env
          = (StepResult.failure ("SteamCMD 설치 실패: " ++ err),
              ["engine", "steamcmd"]))
    ∧ (∀ (env : ProvisionEnv) (e : String), env.engine_ready = true →
        env.method_steamcmd = true → env.app_id_present = true →
        env.steamcmd_result = Except.error e →
        provision env
          = (StepResult.failure ("SteamCMD 실행 실패: " ++ e),
              ["engine", "steamcmd"])) := by
  refine ⟨?_, ?_, ?_⟩
  · intro env h
    simp [provision, h]
  · intro env err h1 h2 h3 h4
    simp [provision, h1, h2, h3, h4]
  · intro env e h1 h2 h3 h4
    simp [provision, h1, h2, h3, h4]

/-- Witness for C9's amended theorem at a concrete environment. -/
theorem C9_pipeline_abort_amended_witness :
    provision { engine_ready := true,
                engine_msg := "",
                method_steamcmd := true,
                app_id_present := true,
                steamcmd_result := Except.ok (false, "no disk"),
                has_image := true }
      = (StepResult.failure ("SteamCMD 설치 실패: " ++ "no disk"),
          ["engine", "steamcmd"]) :=
  C9_pipeline_abort_amended.2.1 _ "no disk" rfl rfl rfl rfl

/-- C10: for every config that has an "instance_dir" key, `compose_cleanup`
returns handled=true and success=true whatever the outcome of
`docker compose down` was — a down failure is never surfaced. -/
theorem C10_cleanup_ignores_down_result (config : J) (down_ok : Bool) (v : J)
    (h : jlookup config "instance_dir" = some v) :
    compose_cleanup config down_ok
      = Except.ok (J.jobj
          [("handled", J.jbool true), ("success", J.jbool true),
           ("message", J.jstr "Docker Compose down completed")]) := by
  simp [compose_cleanup, h]

/-- Witness for C10 with a failing `docker compose down`. -/
theorem C10_cleanup_ignores_down_result_witness :
    (jlookup (J.jobj [("instance_dir", J.jstr "/srv/x")]) "instance_dir"
      = some (J.jstr "/srv/x"))
    ∧ compose_cleanup (J.jobj [("instance_dir", J.jstr "/srv/x")]) false
      = Except.ok (J.jobj
          [("handled", J.jbool true), ("success", J.jbool true),
           ("message", J.jstr "Docker Compose down completed")]) :=
  ⟨rfl, C10_cleanup_ignores_down_result _ false _ rfl⟩

end Saba
